import Mathlib

/-!
Verification development for the ElectricityMeter repository.

The repository contains three variants of the same Arduino sketch:
ElectricityMeter.ino (the base variant, called the ino variant below),
src/unnamed/part_000 (the fullest variant, with session management and
energy counters, suffix 000 below) and src/unnamed/part_001 (a reduced
variant with session management but no energy counters, suffix 001 below).

The embedding models the RS-485 transport as a script of arrival byte
lists: each request/response exchange consumes the next entry of the
script, and the entry holds the bytes that arrive before the transport
timeout.  Machine bytes are Nat (with explicit bounds where they matter)
and 32-bit signed quantities are Int with explicit two's-complement
adjustment where the source casts.
-/

/-- Modelled from the spec: the checksum algorithm lives in crc.h, which is
not part of src/.  Per the spec it is an opaque, deterministic function from
a byte sequence to two checksum bytes, used identically on both ends. -/
abbrev Crc := List Nat → Nat × Nat

def INITIAL_DUMP_INTERVAL : Int := 2000

def PERIODIC_DUMP_INTERVAL : Int := 60000

def PERIODIC_DUMP_SKEW : Int := 5000

def OPEN_CHANNEL_PERIOD : Int := 10000

def EXPECTED_VALUES : Nat := 13

def INVALID_VALUE : Int := 0x7fffffff

/-- Modelled from the spec: the Timeout library is not part of src/.  The
spec describes it as a reusable deadline abstraction whose expiry test is a
pure comparison of the current time against the armed deadline; none means
the deadline is disabled. -/
def timeoutCheck (t : Option Int) (now : Int) : Bool :=
  match t with
  | none => false
  | some d => decide (d ≤ now)

/-- Modelled from the spec: rearming a deadline a fixed interval in the
future. -/
def timeoutReset (now interval : Int) : Option Int :=
  some (now + interval)

/-- Embeds computeCRC from crc.h as used by the sketches: compute the
checksum of the first len bytes of the buffer and store its two bytes at
positions len and len+1. -/
def computeCRC (crc : Crc) (buf : List Nat) (len : Nat) : List Nat :=
  let c := crc (buf.take len)
  buf.take len ++ [c.1, c.2] ++ buf.drop (len + 2)

/-- Embeds sendReceiveRaw: the request (with its checksum filled in) is
written to the wire, then bytes are collected until the timeout or until
resp_size bytes are held.  The arrivals list holds the bytes the bus
delivers before the timeout, so the collected response is its prefix of
length at most resp_size. -/
def sendReceiveRaw (crc : Crc) (req : List Nat) (arrivals : List Nat) (resp_size : Nat) :
    List Nat :=
  let _wire := computeCRC crc req (req.length - 2)
  arrivals.take resp_size

/-- Embeds sendReceive: reject a short read, then save the two trailing
bytes, recompute the checksum over the leading resp_size - 2 bytes in
place, and accept only if the saved bytes match the recomputed ones. -/
def sendReceive (crc : Crc) (req : List Nat) (arrivals : List Nat) (resp_size : Nat) :
    Bool × List Nat :=
  let resp := sendReceiveRaw crc req arrivals resp_size
  if resp.length < resp_size then (false, resp)
  else
    let c0 := resp.getD (resp_size - 2) 0
    let c1 := resp.getD (resp_size - 1) 0
    let resp2 := computeCRC crc resp (resp_size - 2)
    (c0 == resp2.getD (resp_size - 2) 0 && c1 == resp2.getD (resp_size - 1) 0, resp)

/-- Embeds the 11-byte open-channel request: address 0, command 1, first
access level, six password bytes 1, and two checksum placeholder bytes. -/
def openChannelReq : List Nat :=
  [0x00, 0x01, 0x01, 0x01, 0x01, 0x01, 0x01, 0x01, 0x01, 0, 0]

/-- Embeds openChannel: a 4-byte response is expected and success requires
response byte 1 to be zero. -/
def openChannel (crc : Crc) (arrivals : List Nat) : Bool :=
  let r := sendReceive crc openChannelReq arrivals 4
  r.1 && (r.2.getD 1 0 == 0x00)

/-- One bus exchange performed during a poll pass: an authentication
(open-channel) exchange or a value/energy exchange, with its outcome. -/
structure ExEvent where
  isAuth : Bool
  ok : Bool
deriving DecidableEq

/-- Result of checkChannel: whether the channel is usable, the new
open-channel deadline, the remaining bus script, and the exchanges
performed. -/
structure ChanOut where
  ok : Bool
  tmo : Option Int
  bus : List (List Nat)
  events : List ExEvent
deriving DecidableEq

/-- Embeds checkChannel of the 000 and 001 variants: when the open-channel
deadline has expired, try to reopen; only a successful open rearms the
deadline ten seconds ahead. -/
def checkChannel (crc : Crc) (now : Int) (tmo : Option Int) (bus : List (List Nat)) :
    ChanOut :=
  if timeoutCheck tmo now then
    if openChannel crc (bus.headD []) then
      { ok := true, tmo := timeoutReset now OPEN_CHANNEL_PERIOD, bus := bus.tail,
        events := [⟨true, true⟩] }
    else
      { ok := false, tmo := tmo, bus := bus.tail, events := [⟨true, false⟩] }
  else
    { ok := true, tmo := tmo, bus := bus, events := [] }

/-- Embeds the 6-byte read-value request with a parameter code. -/
def readValueReq (code : Nat) : List Nat :=
  [0x00, 0x08, 0x11, code, 0, 0]

/-- Embeds the decoding of a 6-byte read-value response: the two high
status bits of byte 1 are masked off, byte 2 is the low byte and byte 3
the middle byte. -/
def readValueDecode (resp : List Nat) : Nat :=
  ((resp.getD 1 0 &&& 0x3f) <<< 16) ||| resp.getD 2 0 ||| (resp.getD 3 0 <<< 8)

/-- Embeds the 6-byte read-energy-summary request. -/
def readEnergyReq (num : Nat) : List Nat :=
  [0x00, 0x05, num, 0x00, 0, 0]

/-- Embeds the 32-bit word assembled from a 19-byte energy response: low
word from bytes 3 and 4, high word from bytes 1 and 2. -/
def energyWord (resp : List Nat) : Nat :=
  resp.getD 3 0 ||| (resp.getD 4 0 <<< 8) ||| (resp.getD 1 0 <<< 16) |||
    (resp.getD 2 0 <<< 24)

/-- Embeds the int32_t view of the assembled energy word (two's
complement). -/
def readEnergyDecode (resp : List Nat) : Int :=
  if energyWord resp < 2 ^ 31 then (energyWord resp : Int)
  else (energyWord resp : Int) - 2 ^ 32

/-- Result of a single value or energy read in the 000/001 variants. -/
structure ReadOut where
  result : Int
  tmo : Option Int
  bus : List (List Nat)
  events : List ExEvent
deriving DecidableEq

/-- Embeds readValue of the 000 variant: a failed channel check or a failed
exchange yields the INVALID_VALUE sentinel. -/
def readValue000 (crc : Crc) (now : Int) (code : Nat) (tmo : Option Int)
    (bus : List (List Nat)) : ReadOut :=
  let ch := checkChannel crc now tmo bus
  if ch.ok then
    let r := sendReceive crc (readValueReq code) (ch.bus.headD []) 6
    if r.1 then
      { result := (readValueDecode r.2 : Int), tmo := ch.tmo, bus := ch.bus.tail,
        events := ch.events ++ [⟨false, true⟩] }
    else
      { result := INVALID_VALUE, tmo := ch.tmo, bus := ch.bus.tail,
        events := ch.events ++ [⟨false, false⟩] }
  else
    { result := INVALID_VALUE, tmo := ch.tmo, bus := ch.bus, events := ch.events }

/-- Embeds readEnergy of the 000 variant: a 19-byte response, decoded with
the energy byte order. -/
def readEnergy000 (crc : Crc) (now : Int) (num : Nat) (tmo : Option Int)
    (bus : List (List Nat)) : ReadOut :=
  let ch := checkChannel crc now tmo bus
  if ch.ok then
    let r := sendReceive crc (readEnergyReq num) (ch.bus.headD []) 19
    if r.1 then
      { result := readEnergyDecode r.2, tmo := ch.tmo, bus := ch.bus.tail,
        events := ch.events ++ [⟨false, true⟩] }
    else
      { result := INVALID_VALUE, tmo := ch.tmo, bus := ch.bus.tail,
        events := ch.events ++ [⟨false, false⟩] }
  else
    { result := INVALID_VALUE, tmo := ch.tmo, bus := ch.bus, events := ch.events }

/-- Modelled from the spec: FixNum lives in the FixNum library, outside
src/.  Per the spec a fixed-point value is a scaled 32-bit integer with a
distinguished sentinel magnitude meaning not currently known; validity is
the comparison against that sentinel, which the 000 variant names
INVALID_VALUE.  A stored slot holds the last successfully decoded raw
mantissa; the precision conversion applied on assignment belongs to the
excluded formatting codec and no claim depends on it. -/
def fixnumValid (x : Int) : Bool :=
  x != INVALID_VALUE

/-- Embeds updateValue of the 000 variant: an invalid incoming value leaves
the stored slot unchanged and contributes 0 to the validity count. -/
def updateValue000 (value x : Int) : Int × Nat :=
  if !fixnumValid x then (value, 0) else (x, 1)

/-- One entry of the fixed poll sequence: a read-value code or a
read-energy selector. -/
inductive ReadSpec where
  | rv (code : Nat)
  | re (num : Nat)
deriving DecidableEq

/-- Dispatches one poll entry of the 000 variant to readValue or
readEnergy. -/
def doRead000 (crc : Crc) (now : Int) (s : ReadSpec) (tmo : Option Int)
    (bus : List (List Nat)) : ReadOut :=
  match s with
  | .rv code => readValue000 crc now code tmo bus
  | .re num => readEnergy000 crc now num tmo bus

/-- The fixed poll sequence of the 000 variant: phase voltages 1..3, phase
currents 1..3, powers 0..3, frequency, current-day energy, previous-day
energy - thirteen reads. -/
def pollSpecs000 : List ReadSpec :=
  [.rv 0x11, .rv 0x12, .rv 0x13, .rv 0x21, .rv 0x22, .rv 0x23,
   .rv 0x00, .rv 0x01, .rv 0x02, .rv 0x03, .rv 0x40, .re 0x40, .re 0x50]

/-- Accumulated outcome of a poll pass: the new stored slots, the raw read
results, the open-channel deadline, the remaining bus script, the bus
exchanges performed and the validity count. -/
structure PollOut where
  values : List Int
  results : List Int
  tmo : Option Int
  bus : List (List Nat)
  events : List ExEvent
  cnt : Nat
deriving DecidableEq

/-- Embeds the body of updateValues of the 000 variant: the fixed read
sequence, each read feeding updateValue on its slot. -/
def pollSteps000 (crc : Crc) (now : Int) :
    List ReadSpec → List Int → Option Int → List (List Nat) → PollOut
  | [], _, tmo, bus =>
      { values := [], results := [], tmo := tmo, bus := bus, events := [], cnt := 0 }
  | s :: ss, olds, tmo, bus =>
      let r := doRead000 crc now s tmo bus
      let u := updateValue000 (olds.headD 0) r.result
      let rest := pollSteps000 crc now ss olds.tail r.tmo r.bus
      { values := u.1 :: rest.values, results := r.result :: rest.results,
        tmo := rest.tmo, bus := rest.bus, events := r.events ++ rest.events,
        cnt := u.2 + rest.cnt }

/-- State of the 000 variant poller: the open-channel deadline, the
thirteen stored slots in poll order (volts 1..3, amps 1..3, watts 0..3,
hertz, current-day energy, previous-day energy) and validValues. -/
structure Meter000 where
  openTmo : Option Int
  values : List Int
  validValues : Nat
deriving DecidableEq

/-- Embeds updateValues of the 000 variant. -/
def updateValues000 (crc : Crc) (now : Int) (st : Meter000) (bus : List (List Nat)) :
    Meter000 × PollOut :=
  let p := pollSteps000 crc now pollSpecs000 st.values st.openTmo bus
  ({ openTmo := p.tmo, values := p.values, validValues := p.cnt }, p)

/-- Startup state of the 000 variant: the open-channel deadline is armed at
time zero (so it is already expired) and all slots are the zero the C++
runtime gives file-scope objects. -/
def bootMeter000 : Meter000 :=
  { openTmo := some 0, values := List.replicate 13 0, validValues := 0 }

/-- A trivial checksum instance of the opaque Crc contract, used to
evaluate the model on concrete inputs. -/
def crcZero : Crc := fun _ => (0, 0)

/-- Number of authentication (open-channel) exchanges in an event list. -/
def countAuth (es : List ExEvent) : Nat :=
  es.countP (fun e => e.isAuth)

/-- Number of value/energy exchanges in an event list. -/
def countValueEx (es : List ExEvent) : Nat :=
  es.countP (fun e => !e.isAuth)

/-- A bus on which every scripted arrival is shorter than the shortest
expected response, so every exchange ends as a short read. -/
def busDead (bus : List (List Nat)) : Bool :=
  bus.all (fun e => decide (e.length < 4))

/-- A bus whose scripted arrivals are all genuine bytes (below 256). -/
def busBytes (bus : List (List Nat)) : Prop :=
  ∀ e ∈ bus, ∀ b ∈ e, b < 256

/-- A scripted arrival that makes one poll entry of the 000 variant fully
succeed: the exchange is accepted, the bytes are genuine, and for an
energy read the decoded value is not the sentinel. -/
def goodEntry000 (crc : Crc) (s : ReadSpec) (e : List Nat) : Bool :=
  match s with
  | .rv c =>
      (sendReceive crc (readValueReq c) e 6).1 && e.all (fun b => decide (b < 256))
  | .re n =>
      (sendReceive crc (readEnergyReq n) e 19).1 &&
        decide (readEnergyDecode (sendReceive crc (readEnergyReq n) e 19).2 ≠ INVALID_VALUE)

/-- A bus script that makes every entry of a poll sequence fully succeed,
consumed in the same head/tail order as the poll itself. -/
def goodBus000 (crc : Crc) : List ReadSpec → List (List Nat) → Bool
  | [], _ => true
  | s :: ss, bus => goodEntry000 crc s (bus.headD []) && goodBus000 crc ss bus.tail

/-- A 4-byte open-channel response accepted by crcZero with status byte
zero. -/
def openRespOk : List Nat := [0, 0, 0, 0]

/-- A 6-byte read-value response accepted by crcZero, decoding to 0. -/
def valRespOk : List Nat := [0, 0, 0, 0, 0, 0]

/-- A 19-byte energy response accepted by crcZero whose assembled word is
exactly the INVALID_VALUE sentinel 0x7fffffff. -/
def energyRespSentinel : List Nat :=
  [0, 0xff, 0x7f, 0xff, 0xff, 0, 0, 0, 0, 0, 0, 0, 0, 0, 0, 0, 0, 0, 0]

/-- A 19-byte energy response accepted by crcZero, decoding to 5. -/
def energyRespGood : List Nat :=
  [0, 0, 0, 5, 0, 0, 0, 0, 0, 0, 0, 0, 0, 0, 0, 0, 0, 0, 0]

/-- A bus script on which all fourteen exchanges of a boot-time poll pass
of the 000 variant succeed, but both energy responses decode to the
sentinel. -/
def busAllOkSentinel : List (List Nat) :=
  [openRespOk, valRespOk, valRespOk, valRespOk, valRespOk, valRespOk, valRespOk,
   valRespOk, valRespOk, valRespOk, valRespOk, valRespOk, energyRespSentinel,
   energyRespSentinel]

/-- Embeds readValue of the 001 variant, which returns 0 instead of a
sentinel on any failure. -/
def readValue001 (crc : Crc) (now : Int) (code : Nat) (tmo : Option Int)
    (bus : List (List Nat)) : ReadOut :=
  let ch := checkChannel crc now tmo bus
  if ch.ok then
    let r := sendReceive crc (readValueReq code) (ch.bus.headD []) 6
    if r.1 then
      { result := (readValueDecode r.2 : Int), tmo := ch.tmo, bus := ch.bus.tail,
        events := ch.events ++ [⟨false, true⟩] }
    else
      { result := 0, tmo := ch.tmo, bus := ch.bus.tail,
        events := ch.events ++ [⟨false, false⟩] }
  else
    { result := 0, tmo := ch.tmo, bus := ch.bus, events := ch.events }

/-- Embeds updateValue of the 001 variant: an incoming value equal to zero
leaves the stored slot unchanged and contributes 0 to the validity
count. -/
def updateValue001 (value x : Int) : Int × Nat :=
  if x == 0 then (value, 0) else (x, 1)

/-- The fixed poll sequence of the 001 and ino variants: phase voltages,
phase currents, powers 0..3 and frequency - eleven read-value codes. -/
def pollCodes001 : List Nat :=
  [0x11, 0x12, 0x13, 0x21, 0x22, 0x23, 0x00, 0x01, 0x02, 0x03, 0x40]

/-- Embeds the body of updateValues of the 001 variant. -/
def pollSteps001 (crc : Crc) (now : Int) :
    List Nat → List Int → Option Int → List (List Nat) → PollOut
  | [], _, tmo, bus =>
      { values := [], results := [], tmo := tmo, bus := bus, events := [], cnt := 0 }
  | code :: codes, olds, tmo, bus =>
      let r := readValue001 crc now code tmo bus
      let u := updateValue001 (olds.headD 0) r.result
      let rest := pollSteps001 crc now codes olds.tail r.tmo r.bus
      { values := u.1 :: rest.values, results := r.result :: rest.results,
        tmo := rest.tmo, bus := rest.bus, events := r.events ++ rest.events,
        cnt := u.2 + rest.cnt }

/-- State of the 001 variant poller: eleven stored slots in poll order. -/
structure Meter001 where
  openTmo : Option Int
  values : List Int
  validValues : Nat
deriving DecidableEq

/-- Embeds updateValues of the 001 variant. -/
def updateValues001 (crc : Crc) (now : Int) (st : Meter001) (bus : List (List Nat)) :
    Meter001 × PollOut :=
  let p := pollSteps001 crc now pollCodes001 st.values st.openTmo bus
  ({ openTmo := p.tmo, values := p.values, validValues := p.cnt }, p)

/-- Status glyphs of the ino variant. -/
def STATUS_UNKNOWN : Nat := 63

def STATUS_OK : Nat := 42

/-- State of the ino variant: a status glyph plus eleven stored slots in
poll order. -/
structure MeterIno where
  status : Nat
  values : List Int
deriving DecidableEq

/-- Embeds readValue of the ino variant, which has no channel check: the
exchange happens unconditionally and a failure yields the sentinel. -/
def readValueIno (crc : Crc) (code : Nat) (arrivals : List Nat) : Int :=
  let r := sendReceive crc (readValueReq code) arrivals 6
  if r.1 then (readValueDecode r.2 : Int) else INVALID_VALUE

/-- Embeds the read loops of updateValues of the ino variant: every slot is
assigned the read result unconditionally. -/
def inoReads (crc : Crc) : List Nat → List (List Nat) → List Int × List (List Nat)
  | [], bus => ([], bus)
  | code :: codes, bus =>
      let v := readValueIno crc code (bus.headD [])
      let rest := inoReads crc codes bus.tail
      (v :: rest.1, rest.2)

/-- Embeds updateValues of the ino variant: open the channel first; on
failure set the unknown status and stop, on success set the ok status and
overwrite every slot with its read result. -/
def updateValuesIno (crc : Crc) (st : MeterIno) (bus : List (List Nat)) :
    MeterIno × List (List Nat) :=
  if openChannel crc (bus.headD []) then
    let r := inoReads crc pollCodes001 bus.tail
    ({ status := STATUS_OK, values := r.1 }, r.2)
  else
    ({ st with status := STATUS_UNKNOWN }, bus.tail)

/-- Dump flavor bytes. -/
def HIGHLIGHT_CHAR : Nat := 42

def DUMP_REGULAR : Nat := 0

def DUMP_FIRST : Nat := HIGHLIGHT_CHAR

def DUMP_QUERY : Nat := 63

/-- Embeds the terminator written after the summary template: nothing for a
regular dump, the highlight character alone for a first dump, and the
flavor byte followed by the highlight character otherwise. -/
def dumpTerm (dumpType : Nat) : List Nat :=
  if dumpType = DUMP_REGULAR then []
  else if dumpType = HIGHLIGHT_CHAR then [HIGHLIGHT_CHAR]
  else [dumpType, HIGHLIGHT_CHAR]

/-- One emitted telemetry line: the summary line of the 000 variant (total
power, frequency, the two energy counters and the terminator bytes), the
summary line of the ino variant (no energy counters), or a phase line. -/
inductive Line where
  | summary (watts0 hertz cur prev : Int) (term : List Nat)
  | summaryIno (watts0 hertz : Int) (term : List Nat)
  | phase (i : Nat) (watts volts amps : Int)
deriving DecidableEq

/-- Dump scheduler state shared by the variants: the dump deadline and the
first-dump flag. -/
structure DumpState where
  dumpTmo : Option Int
  firstDump : Bool
deriving DecidableEq

/-- Embeds makeDump of the 000 variant: format and emit the summary line
and the three phase lines unconditionally, then rearm the dump deadline
with the jittered period and clear the first-dump flag. -/
def makeDump000 (m : Meter000) (dumpType : Nat) (now rand : Int) :
    DumpState × List Line :=
  ({ dumpTmo := some (now + PERIODIC_DUMP_INTERVAL + rand), firstDump := false },
   [Line.summary (m.values.getD 6 0) (m.values.getD 10 0) (m.values.getD 11 0)
      (m.values.getD 12 0) (dumpTerm dumpType),
    Line.phase 1 (m.values.getD 7 0) (m.values.getD 0 0) (m.values.getD 3 0),
    Line.phase 2 (m.values.getD 8 0) (m.values.getD 1 0) (m.values.getD 4 0),
    Line.phase 3 (m.values.getD 9 0) (m.values.getD 2 0) (m.values.getD 5 0)])

/-- Embeds makeDump of the ino variant: while the status glyph is not the
ok glyph, return before any output, leaving the dump deadline and the
first-dump flag untouched. -/
def makeDumpIno (m : MeterIno) (ds : DumpState) (dumpType : Nat) (now rand : Int) :
    DumpState × List Line :=
  if m.status != STATUS_OK then (ds, [])
  else
    ({ dumpTmo := some (now + PERIODIC_DUMP_INTERVAL + rand), firstDump := false },
     [Line.summaryIno (m.values.getD 6 0) (m.values.getD 10 0) (dumpTerm dumpType),
      Line.phase 1 (m.values.getD 7 0) (m.values.getD 0 0) (m.values.getD 3 0),
      Line.phase 2 (m.values.getD 8 0) (m.values.getD 1 0) (m.values.getD 4 0),
      Line.phase 3 (m.values.getD 9 0) (m.values.getD 2 0) (m.values.getD 5 0)])

/-- Control-loop state of the 000 variant used for the dump schedule: the
measurement snapshot, the dump scheduler state, the stream of pending
random skews and the timestamped output so far.  The poller is modelled
separately; its slot updates do not touch the dump schedule or markers, so
the snapshot is held fixed here. -/
structure SchedState where
  meter : Meter000
  ds : DumpState
  rands : List Int
  out : List (Int × Line)
deriving DecidableEq

/-- Performs one makeDump call inside the control loop of the 000 variant,
consuming the next random skew and appending the timestamped lines. -/
def schedMakeDump (s : SchedState) (ty : Nat) (now : Int) : SchedState :=
  let r := makeDump000 s.meter ty now (s.rands.headD 0)
  { s with
    ds := r.1
    rands := s.rands.tail
    out := s.out ++ r.2.map (fun l => (now, l)) }

/-- Embeds dumpState of the 000 variant: when the dump deadline has
expired, emit a first dump if the first-dump flag is still set, otherwise a
regular dump. -/
def dumpStateStep (s : SchedState) (now : Int) : SchedState :=
  if timeoutCheck s.ds.dumpTmo now then
    if s.ds.firstDump then schedMakeDump s DUMP_FIRST now
    else schedMakeDump s DUMP_REGULAR now
  else s

/-- Embeds one iteration of loop of the 000 variant as it affects dumps:
dumpState runs first, then executeCommand emits a query dump when the
parsed command is the query command. -/
def loopStep000 (s : SchedState) (input : Int × Bool) : SchedState :=
  let s1 := dumpStateStep s input.1
  if input.2 then schedMakeDump s1 DUMP_QUERY input.1 else s1

/-- Runs the control loop of the 000 variant over a list of iterations,
each given by its time and whether a query command arrives in it. -/
def run000 (s : SchedState) : List (Int × Bool) → SchedState
  | [] => s
  | i :: is => run000 (loopStep000 s i) is

/-- Startup scheduler state of the 000 variant: the dump deadline is armed
INITIAL_DUMP_INTERVAL after boot (time zero) and the first-dump flag is
set. -/
def bootSched000 (rands : List Int) : SchedState :=
  { meter := bootMeter000,
    ds := { dumpTmo := some INITIAL_DUMP_INTERVAL, firstDump := true },
    rands := rands, out := [] }

/-- Recognizes a summary line that carries the first-dump marker: the
terminator is exactly the highlight character. -/
def isFirstMarkerLine : Int × Line → Bool
  | (_, Line.summary _ _ _ _ term) => term == [HIGHLIGHT_CHAR]
  | _ => false

/-- Number of first-dump-marked summary lines in a timestamped output. -/
def countFirstMarkers (out : List (Int × Line)) : Nat :=
  out.countP isFirstMarkerLine

/-! ## Helper lemmas -/

theorem lor_shiftLeft_eq_add (k a b : Nat) (h : a < 2 ^ k) :
    a ||| b <<< k = b * 2 ^ k + a := by
  have hbit : ∀ i, i ≥ k → a.testBit i = false := by
    intro i hik
    exact Nat.testBit_eq_false_of_lt (lt_of_lt_of_le h (Nat.pow_le_pow_right (by omega) hik))
  have hmod : (a ||| b <<< k) % 2 ^ k = a := by
    apply Nat.eq_of_testBit_eq
    intro i
    rcases Nat.lt_or_ge i k with hik | hik
    · simp [Nat.testBit_mod_two_pow, Nat.testBit_lor, Nat.testBit_shiftLeft, hik,
        Nat.not_le_of_lt hik]
    · simp [Nat.testBit_mod_two_pow, Nat.not_lt_of_le hik, hbit i hik]
  have hdiv : (a ||| b <<< k) / 2 ^ k = b := by
    rw [← Nat.shiftRight_eq_div_pow]
    apply Nat.eq_of_testBit_eq
    intro i
    simp [Nat.testBit_shiftRight, Nat.testBit_lor, Nat.testBit_shiftLeft,
      hbit (k + i) (by omega), Nat.le_add_right]
  have hsum := Nat.div_add_mod (a ||| b <<< k) (2 ^ k)
  rw [hmod, hdiv, Nat.mul_comm] at hsum
  omega

theorem getD_lt_of_forall (l : List Nat) (i : Nat) (h : ∀ b ∈ l, b < 256) :
    l.getD i 0 < 256 := by
  rw [List.getD_eq_getD_get?]
  rcases hv : l.get? i with _ | v
  · simp
  · have : v ∈ l := List.get?_mem hv
    simpa [hv] using h v this

theorem readValueDecode_lt (resp : List Nat) (h : ∀ b ∈ resp, b < 256) :
    readValueDecode resp < 2 ^ 22 := by
  have h2 : resp.getD 2 0 < 256 := getD_lt_of_forall resp 2 h
  have h3 : resp.getD 3 0 < 256 := getD_lt_of_forall resp 3 h
  have h1 : resp.getD 1 0 &&& 0x3f ≤ 0x3f := Nat.and_le_right
  have e22 : (2 : Nat) ^ 22 = 4194304 := by norm_num
  unfold readValueDecode
  apply Nat.or_lt_two_pow
  apply Nat.or_lt_two_pow
  · rw [Nat.shiftLeft_eq, e22]
    have e16 : (2 : Nat) ^ 16 = 65536 := by norm_num
    rw [e16]
    omega
  · omega
  · rw [Nat.shiftLeft_eq, e22]
    have e8 : (2 : Nat) ^ 8 = 256 := by norm_num
    rw [e8]
    omega

theorem sendReceive_snd (crc : Crc) (req arrivals : List Nat) (L : Nat) :
    (sendReceive crc req arrivals L).2 = arrivals.take L := by
  simp only [sendReceive, sendReceiveRaw]
  split <;> rfl

/-! ## C1: sendReceive accepts exactly the full-length, checksum-valid
responses -/

/-- C1: for every response read with expected length L, sendReceive accepts
iff exactly L bytes were collected before the timeout and the two trailing
bytes equal the checksum computed over the preceding L - 2 bytes; a short
read or checksum mismatch yields false. -/
theorem sendReceive_accept_iff (crc : Crc) (req arrivals : List Nat) (L : Nat)
    (hL : 2 ≤ L) :
    (sendReceive crc req arrivals L).1 = true ↔
      ((sendReceiveRaw crc req arrivals L).length = L ∧
        (sendReceiveRaw crc req arrivals L).getD (L - 2) 0 =
          (crc ((sendReceiveRaw crc req arrivals L).take (L - 2))).1 ∧
        (sendReceiveRaw crc req arrivals L).getD (L - 1) 0 =
          (crc ((sendReceiveRaw crc req arrivals L).take (L - 2))).2) := by
  simp only [sendReceive, sendReceiveRaw]
  by_cases hlen : (arrivals.take L).length < L
  · rw [if_pos hlen]
    constructor
    · intro hfalse
      simp at hfalse
    · rintro ⟨hl, -, -⟩
      omega
  · rw [if_neg hlen]
    have hLlen : (arrivals.take L).length = L := by
      rw [List.length_take] at hlen ⊢
      omega
    have ht : ((arrivals.take L).take (L - 2)).length = L - 2 := by
      rw [List.length_take, hLlen]
      omega
    have hd : (arrivals.take L).drop (L - 2 + 2) = [] := by
      have hLe : L - 2 + 2 = L := by omega
      rw [hLe]
      exact List.drop_eq_nil_of_le hLlen.le
    simp only [computeCRC, hd, List.append_nil]
    have hg2 : ((arrivals.take L).take (L - 2) ++
        [(crc ((arrivals.take L).take (L - 2))).1,
         (crc ((arrivals.take L).take (L - 2))).2]).getD (L - 2) 0 =
        (crc ((arrivals.take L).take (L - 2))).1 := by
      rw [List.getD_append_right _ _ _ _ (by omega)]
      rw [ht]
      simp
    have hg1 : ((arrivals.take L).take (L - 2) ++
        [(crc ((arrivals.take L).take (L - 2))).1,
         (crc ((arrivals.take L).take (L - 2))).2]).getD (L - 1) 0 =
        (crc ((arrivals.take L).take (L - 2))).2 := by
      rw [List.getD_append_right _ _ _ _ (by omega)]
      rw [ht]
      have : L - 1 - (L - 2) = 1 := by omega
      rw [this]
      simp
    simp only [hg2, hg1, hLlen, Bool.and_eq_true, beq_iff_eq, true_and]

/-- Witness for C1 at a concrete accepted exchange. -/
theorem sendReceive_accept_iff_witness :
    (sendReceive crcZero openChannelReq [7, 0, 0, 0] 4).1 = true :=
  (sendReceive_accept_iff crcZero openChannelReq [7, 0, 0, 0] 4 (by decide)).mpr
    (by refine ⟨?_, ?_, ?_⟩ <;> decide)

/-! ## C7: energy response byte layout -/

/-- C7: for every genuine-byte energy response, the assembled 32-bit word
equals response byte 3 plus byte 4 shifted by 8 plus byte 1 shifted by 16
plus byte 2 shifted by 24, so its low 16-bit word comes from bytes 3 and 4
and its high 16-bit word from bytes 1 and 2; and this byte order differs
from the read-value decoding on a concrete response. -/
theorem energyWord_layout :
    (∀ resp : List Nat, (∀ b ∈ resp, b < 256) →
      energyWord resp =
        resp.getD 3 0 + resp.getD 4 0 * 2 ^ 8 + resp.getD 1 0 * 2 ^ 16 +
          resp.getD 2 0 * 2 ^ 24 ∧
      energyWord resp % 2 ^ 16 = resp.getD 3 0 + resp.getD 4 0 * 2 ^ 8 ∧
      energyWord resp / 2 ^ 16 = resp.getD 1 0 + resp.getD 2 0 * 2 ^ 8) ∧
    energyWord [0, 1, 2, 3, 4, 0] ≠ readValueDecode [0, 1, 2, 3, 4, 0] := by
  constructor
  · intro resp h
    have h1 : resp.getD 1 0 < 256 := getD_lt_of_forall resp 1 h
    have h2 : resp.getD 2 0 < 256 := getD_lt_of_forall resp 2 h
    have h3 : resp.getD 3 0 < 256 := getD_lt_of_forall resp 3 h
    have h4 : resp.getD 4 0 < 256 := getD_lt_of_forall resp 4 h
    have p8 : (2 : Nat) ^ 8 = 256 := by norm_num
    have p16 : (2 : Nat) ^ 16 = 65536 := by norm_num
    have p24 : (2 : Nat) ^ 24 = 16777216 := by norm_num
    have e1 : resp.getD 3 0 ||| resp.getD 4 0 <<< 8 =
        resp.getD 4 0 * 2 ^ 8 + resp.getD 3 0 :=
      lor_shiftLeft_eq_add 8 _ _ (by rw [p8]; exact h3)
    have e2 : resp.getD 4 0 * 2 ^ 8 + resp.getD 3 0 ||| resp.getD 1 0 <<< 16 =
        resp.getD 1 0 * 2 ^ 16 + (resp.getD 4 0 * 2 ^ 8 + resp.getD 3 0) :=
      lor_shiftLeft_eq_add 16 _ _ (by rw [p16, p8]; omega)
    have e3 : resp.getD 1 0 * 2 ^ 16 + (resp.getD 4 0 * 2 ^ 8 + resp.getD 3 0) |||
          resp.getD 2 0 <<< 24 =
        resp.getD 2 0 * 2 ^ 24 +
          (resp.getD 1 0 * 2 ^ 16 + (resp.getD 4 0 * 2 ^ 8 + resp.getD 3 0)) :=
      lor_shiftLeft_eq_add 24 _ _ (by rw [p24, p16, p8]; omega)
    unfold energyWord
    rw [e1, e2, e3]
    refine ⟨by ring, ?_, ?_⟩
    · rw [p8, p16, p24]
      omega
    · rw [p8, p16, p24]
      omega
  · decide

/-- Witness for C7 at a concrete byte-bounded response. -/
theorem energyWord_layout_witness :
    energyWord [0, 1, 2, 3, 4, 0] = 3 + 4 * 2 ^ 8 + 1 * 2 ^ 16 + 2 * 2 ^ 24 :=
  (energyWord_layout.1 [0, 1, 2, 3, 4, 0] (by decide)).1

/-! ## C9: a successful value read never decodes to the sentinel -/

theorem busBytes_tail (bus : List (List Nat)) (h : busBytes bus) :
    busBytes bus.tail := fun e he => h e (List.tail_subset bus he)

theorem busBytes_headD (bus : List (List Nat)) (h : busBytes bus) :
    ∀ b ∈ bus.headD [], b < 256 := by
  cases bus with
  | nil => simp
  | cons e t => exact h e (by simp)

theorem checkChannel_bus_bytes (crc : Crc) (now : Int) (tmo : Option Int)
    (bus : List (List Nat)) (h : busBytes bus) :
    busBytes (checkChannel crc now tmo bus).bus := by
  unfold checkChannel
  split
  · split
    · exact busBytes_tail bus h
    · exact busBytes_tail bus h
  · exact h

theorem checkChannel_events_auth (crc : Crc) (now : Int) (tmo : Option Int)
    (bus : List (List Nat)) :
    ∀ ev ∈ (checkChannel crc now tmo bus).events, ev.isAuth = true := by
  unfold checkChannel
  split
  · split
    · intro ev hev
      simp only [List.mem_singleton] at hev
      rw [hev]
    · intro ev hev
      simp only [List.mem_singleton] at hev
      rw [hev]
  · intro ev hev
    simp at hev

/-- C9: whenever readValue of the 000 variant performs a successful value
exchange on genuine bytes, its result lies in [0, 0x3fffff] and therefore
never equals the INVALID_VALUE sentinel: a returned sentinel unambiguously
indicates a failed or skipped exchange. -/
theorem readValue000_success_in_range (crc : Crc) (now : Int) (code : Nat)
    (tmo : Option Int) (bus : List (List Nat)) (hb : busBytes bus)
    (hs : ∃ ev ∈ (readValue000 crc now code tmo bus).events,
      ev.isAuth = false ∧ ev.ok = true) :
    0 ≤ (readValue000 crc now code tmo bus).result ∧
      (readValue000 crc now code tmo bus).result ≤ 0x3fffff ∧
      (readValue000 crc now code tmo bus).result ≠ INVALID_VALUE := by
  have hchb : busBytes (checkChannel crc now tmo bus).bus :=
    checkChannel_bus_bytes crc now tmo bus hb
  have hauth := checkChannel_events_auth crc now tmo bus
  unfold readValue000 at hs ⊢
  cases hok : (checkChannel crc now tmo bus).ok with
  | false =>
      exfalso
      simp only [hok, Bool.false_eq_true, if_false] at hs
      rcases hs with ⟨ev, hev, hfa, -⟩
      have := hauth ev hev
      rw [hfa] at this
      cases this
  | true =>
      simp only [hok, if_true] at hs ⊢
      cases hr : (sendReceive crc (readValueReq code)
          ((checkChannel crc now tmo bus).bus.headD []) 6).1 with
      | false =>
          exfalso
          simp only [hr, Bool.false_eq_true, if_false] at hs
          rcases hs with ⟨ev, hev, hfa, hko⟩
          rcases List.mem_append.mp hev with hin | hin
          · have := hauth ev hin
            rw [hfa] at this
            cases this
          · simp only [List.mem_singleton] at hin
            rw [hin] at hko
            cases hko
      | true =>
          simp only [hr, if_true]
          have hbytes : ∀ b ∈ ((checkChannel crc now tmo bus).bus.headD []).take 6,
              b < 256 := fun b hbmem =>
            busBytes_headD _ hchb b (List.take_subset _ _ hbmem)
          have hd := readValueDecode_lt _ hbytes
          rw [sendReceive_snd]
          have e22 : (2 : Nat) ^ 22 = 4194304 := by norm_num
          rw [e22] at hd
          have hle : readValueDecode
              (((checkChannel crc now tmo bus).bus.headD []).take 6) ≤ 4194303 := by
            omega
          refine ⟨by positivity, ?_, ?_⟩
          · exact_mod_cast hle
          · have hI : INVALID_VALUE = (2147483647 : Int) := by norm_num [INVALID_VALUE]
            have : (readValueDecode
                ((((checkChannel crc now tmo bus).bus.headD []).take 6)) : Int) ≤
                4194303 := by exact_mod_cast hle
            rw [hI]
            omega

/-- Witness for C9 at a concrete successful exchange. -/
theorem readValue000_success_in_range_witness :
    0 ≤ (readValue000 crcZero 0 0x11 (some 20000) [valRespOk]).result ∧
      (readValue000 crcZero 0 0x11 (some 20000) [valRespOk]).result ≤ 0x3fffff ∧
      (readValue000 crcZero 0 0x11 (some 20000) [valRespOk]).result ≠ INVALID_VALUE :=
  readValue000_success_in_range crcZero 0 0x11 (some 20000) [valRespOk]
    (by unfold busBytes; decide) ⟨⟨false, true⟩, by decide, rfl, rfl⟩

/-! ## C2: behavior of a poll pass over a dead bus -/

theorem busDead_tail (bus : List (List Nat)) (h : busDead bus = true) :
    busDead bus.tail = true := by
  cases bus with
  | nil => exact h
  | cons e t =>
      simp only [busDead, List.all_cons, Bool.and_eq_true] at h
      exact h.2

theorem busDead_headD (bus : List (List Nat)) (h : busDead bus = true) :
    (bus.headD []).length < 4 := by
  cases bus with
  | nil => simp
  | cons e t =>
      simp only [busDead, List.all_cons, Bool.and_eq_true, decide_eq_true_eq] at h
      simpa using h.1

theorem sendReceive_short (crc : Crc) (req arrivals : List Nat) (L : Nat)
    (h : arrivals.length < L) : (sendReceive crc req arrivals L).1 = false := by
  unfold sendReceive sendReceiveRaw
  have hl : (arrivals.take L).length < L := by
    rw [List.length_take]
    omega
  rw [if_pos hl]

theorem openChannel_short (crc : Crc) (arrivals : List Nat)
    (h : arrivals.length < 4) : openChannel crc arrivals = false := by
  simp [openChannel, sendReceive_short crc openChannelReq arrivals 4 h]

theorem checkChannel_expired_fail (crc : Crc) (now : Int) (tmo : Option Int)
    (bus : List (List Nat)) (hexp : timeoutCheck tmo now = true)
    (hopen : openChannel crc (bus.headD []) = false) :
    checkChannel crc now tmo bus =
      { ok := false, tmo := tmo, bus := bus.tail, events := [⟨true, false⟩] } := by
  rw [List.headD_eq_head?] at hopen
  unfold checkChannel
  rw [if_pos hexp, if_neg (by simp [hopen])]

theorem checkChannel_not_expired (crc : Crc) (now : Int) (tmo : Option Int)
    (bus : List (List Nat)) (hexp : timeoutCheck tmo now = false) :
    checkChannel crc now tmo bus =
      { ok := true, tmo := tmo, bus := bus, events := [] } := by
  unfold checkChannel
  rw [if_neg (by simp [hexp])]

theorem doRead000_dead (crc : Crc) (now : Int) (s : ReadSpec) (tmo : Option Int)
    (bus : List (List Nat)) (hd : busDead bus = true) :
    (doRead000 crc now s tmo bus).result = INVALID_VALUE ∧
      (doRead000 crc now s tmo bus).tmo = tmo ∧
      (doRead000 crc now s tmo bus).bus = bus.tail ∧
      (doRead000 crc now s tmo bus).events =
        (if timeoutCheck tmo now then [⟨true, false⟩] else [⟨false, false⟩]) := by
  have hh : (bus.headD []).length < 4 := busDead_headD bus hd
  cases hexp : timeoutCheck tmo now with
  | true =>
      have hopen : openChannel crc (bus.headD []) = false := openChannel_short crc _ hh
      have hcc := checkChannel_expired_fail crc now tmo bus hexp hopen
      cases s with
      | rv code => simp [doRead000, readValue000, hcc]
      | re num => simp [doRead000, readEnergy000, hcc]
  | false =>
      have hcc := checkChannel_not_expired crc now tmo bus hexp
      cases s with
      | rv code =>
          have hsr : (sendReceive crc (readValueReq code) (bus.headD []) 6).1 = false :=
            sendReceive_short _ _ _ _ (by omega)
          rw [List.headD_eq_head?] at hsr
          simp [doRead000, readValue000, hcc, hsr]
      | re num =>
          have hsr : (sendReceive crc (readEnergyReq num) (bus.headD []) 19).1 = false :=
            sendReceive_short _ _ _ _ (by omega)
          rw [List.headD_eq_head?] at hsr
          simp [doRead000, readEnergy000, hcc, hsr]

theorem pollSteps000_dead (crc : Crc) (now : Int) (specs : List ReadSpec) :
    ∀ (olds : List Int) (tmo : Option Int) (bus : List (List Nat)),
      busDead bus = true → olds.length = specs.length →
      (pollSteps000 crc now specs olds tmo bus).values = olds ∧
      (pollSteps000 crc now specs olds tmo bus).cnt = 0 ∧
      (pollSteps000 crc now specs olds tmo bus).tmo = tmo ∧
      (timeoutCheck tmo now = true →
        countAuth (pollSteps000 crc now specs olds tmo bus).events = specs.length ∧
        countValueEx (pollSteps000 crc now specs olds tmo bus).events = 0) := by
  induction specs with
  | nil =>
      intro olds tmo bus hd hlen
      have holds : olds = [] := List.length_eq_zero.mp hlen
      subst holds
      simp [pollSteps000, countAuth, countValueEx]
  | cons s ss ih =>
      intro olds tmo bus hd hlen
      cases olds with
      | nil => simp at hlen
      | cons o os =>
          obtain ⟨hres, htmo, hbus, hev⟩ := doRead000_dead crc now s tmo bus hd
          have hlen' : os.length = ss.length := by
            simpa using hlen
          obtain ⟨ihv, ihc, iht, ihe⟩ :=
            ih os tmo bus.tail (busDead_tail bus hd) hlen'
          simp only [pollSteps000, htmo, hbus, hres]
          have hupd : updateValue000 ((o :: os).headD 0) INVALID_VALUE = (o, 0) := by
            simp [updateValue000, fixnumValid]
          rw [List.headD_cons] at hupd
          simp only [List.headD_cons, List.tail_cons, hupd]
          refine ⟨by rw [ihv], by rw [ihc], iht, ?_⟩
          intro hexp
          obtain ⟨iha, ihx⟩ := ihe hexp
          rw [hev, if_pos hexp]
          constructor
          · simp [countAuth, List.countP_append] at iha ⊢
            omega
          · simp [countValueEx, List.countP_append] at ihx ⊢
            exact ihx

/-- C2 counterexample: over a dead bus with the session expired, the poll
pass of the 000 variant performs thirteen authentication exchanges, not at
most one. -/
theorem updateValues000_reauth_counterexample :
    countAuth ((updateValues000 crcZero 0 bootMeter000 []).2.events) = 13 ∧
      ¬ countAuth ((updateValues000 crcZero 0 bootMeter000 []).2.events) ≤ 1 := by
  decide

/-- C2 (amended): within one poll pass of the 000 variant entered with the
session expired, over a bus on which every exchange fails, every read
observes the failure (no value exchange happens and nothing is stored),
but the open-channel authentication exchange is re-attempted by each of the
thirteen reads, because the open-channel deadline is rearmed only on a
successful open. -/
theorem updateValues000_dead_bus_reauth (crc : Crc) (now : Int) (st : Meter000)
    (bus : List (List Nat)) (hd : busDead bus = true)
    (hexp : timeoutCheck st.openTmo now = true) (hlen : st.values.length = 13) :
    countAuth ((updateValues000 crc now st bus).2.events) = EXPECTED_VALUES ∧
      countValueEx ((updateValues000 crc now st bus).2.events) = 0 ∧
      (updateValues000 crc now st bus).1.values = st.values ∧
      (updateValues000 crc now st bus).1.validValues = 0 := by
  obtain ⟨hv, hc, -, hev⟩ :=
    pollSteps000_dead crc now pollSpecs000 st.values st.openTmo bus hd
      (by rw [hlen]; rfl)
  obtain ⟨ha, hx⟩ := hev hexp
  unfold updateValues000
  exact ⟨ha, hx, hv, hc⟩

/-- Witness for the amended C2 at a concrete dead bus. -/
theorem updateValues000_dead_bus_reauth_witness :
    countAuth ((updateValues000 crcZero 0 bootMeter000 [[1], [2, 3]]).2.events) =
        EXPECTED_VALUES ∧
      countValueEx ((updateValues000 crcZero 0 bootMeter000 [[1], [2, 3]]).2.events) = 0 ∧
      (updateValues000 crcZero 0 bootMeter000 [[1], [2, 3]]).1.values =
        bootMeter000.values ∧
      (updateValues000 crcZero 0 bootMeter000 [[1], [2, 3]]).1.validValues = 0 :=
  updateValues000_dead_bus_reauth crcZero 0 bootMeter000 [[1], [2, 3]]
    (by decide) (by decide) (by decide)

/-! ## C3: what a query dump does to the periodic deadline -/

/-- C3 counterexample: a query dump emitted while the next periodic dump is
due at time 5000 rearms that deadline to 63000, so the on-demand dump does
shift the periodic schedule. -/
theorem schedMakeDump_query_shifts_deadline :
    (schedMakeDump
        { meter := bootMeter000, ds := { dumpTmo := some 5000, firstDump := false },
          rands := [0], out := [] } DUMP_QUERY 3000).ds.dumpTmo = some 63000 ∧
      some (63000 : Int) ≠ some (5000 : Int) := by
  decide

/-- C3 (amended): emitting an on-demand query dump rearms the next
automatic dump deadline exactly like any other dump - to now plus the
60-second period plus the drawn skew, a value within the skew window - and
clears the first-dump flag; the previous deadline is discarded. -/
theorem schedMakeDump_query_rearms (s : SchedState) (now : Int)
    (h1 : -PERIODIC_DUMP_SKEW ≤ s.rands.headD 0)
    (h2 : s.rands.headD 0 < PERIODIC_DUMP_SKEW) :
    ∃ d : Int, (schedMakeDump s DUMP_QUERY now).ds.dumpTmo = some d ∧
      now + PERIODIC_DUMP_INTERVAL - PERIODIC_DUMP_SKEW ≤ d ∧
      d < now + PERIODIC_DUMP_INTERVAL + PERIODIC_DUMP_SKEW ∧
      (schedMakeDump s DUMP_QUERY now).ds.firstDump = false := by
  refine ⟨now + PERIODIC_DUMP_INTERVAL + s.rands.headD 0, ?_, ?_, ?_, ?_⟩
  · simp [schedMakeDump, makeDump000]
  · unfold PERIODIC_DUMP_INTERVAL PERIODIC_DUMP_SKEW at *
    omega
  · unfold PERIODIC_DUMP_INTERVAL PERIODIC_DUMP_SKEW at *
    omega
  · simp [schedMakeDump, makeDump000]

/-- Witness for the amended C3 at a concrete scheduler state. -/
theorem schedMakeDump_query_rearms_witness :
    ∃ d : Int,
      (schedMakeDump
          { meter := bootMeter000, ds := { dumpTmo := some 5000, firstDump := false },
            rands := [0], out := [] } DUMP_QUERY 3000).ds.dumpTmo = some d ∧
        3000 + PERIODIC_DUMP_INTERVAL - PERIODIC_DUMP_SKEW ≤ d ∧
        d < 3000 + PERIODIC_DUMP_INTERVAL + PERIODIC_DUMP_SKEW ∧
        (schedMakeDump
            { meter := bootMeter000, ds := { dumpTmo := some 5000, firstDump := false },
              rands := [0], out := [] } DUMP_QUERY 3000).ds.firstDump = false :=
  schedMakeDump_query_rearms
    { meter := bootMeter000, ds := { dumpTmo := some 5000, firstDump := false },
      rands := [0], out := [] } 3000 (by decide) (by decide)

/-! ## C5: dump suppression across the variants -/

/-- C5 counterexample: in the 000 variant (the one with the query flavor),
makeDump at the boot state - where nothing was ever read and validValues is
zero - still emits four lines, not zero. -/
theorem makeDump000_emits_at_boot :
    ((makeDump000 bootMeter000 DUMP_QUERY 0 0).2).length = 4 ∧ (4 : Nat) ≠ 0 := by
  decide

/-- C5 (amended): only the base ino variant suppresses dumps, and it does so
exactly while the status glyph is not the ok glyph (the last channel open
failed or never happened), emitting nothing and leaving the dump schedule
and first-dump flag untouched, for every flavor it has; the 000 variant
always emits the summary line and the three phase lines, whatever the
measurement state. -/
theorem dump_suppression_only_ino :
    (∀ (m : MeterIno) (ds : DumpState) (ty : Nat) (now rand : Int),
      m.status ≠ STATUS_OK → makeDumpIno m ds ty now rand = (ds, [])) ∧
    (∀ (m : Meter000) (ty : Nat) (now rand : Int),
      ((makeDump000 m ty now rand).2).length = 4) := by
  constructor
  · intro m ds ty now rand h
    unfold makeDumpIno
    rw [if_pos (by simpa [bne_iff_ne] using h)]
  · intro m ty now rand
    rfl

/-- Witness for the amended C5: a concrete unknown-status state emits
nothing in the ino variant, while the 000 variant emits four lines at the
same never-read state. -/
theorem dump_suppression_only_ino_witness :
    makeDumpIno ⟨STATUS_UNKNOWN, List.replicate 11 0⟩
        { dumpTmo := some 2000, firstDump := true } DUMP_FIRST 2000 0 =
      ({ dumpTmo := some 2000, firstDump := true }, []) ∧
    ((makeDump000 bootMeter000 DUMP_REGULAR 2000 0).2).length = 4 :=
  ⟨dump_suppression_only_ino.1 ⟨STATUS_UNKNOWN, List.replicate 11 0⟩
      { dumpTmo := some 2000, firstDump := true } DUMP_FIRST 2000 0 (by decide),
    dump_suppression_only_ino.2 bootMeter000 DUMP_REGULAR 2000 0⟩

/-! ## C4: retention of stored measurements across failed reads -/

theorem updateValue000_fst (v x : Int) :
    (updateValue000 v x).1 = if x = INVALID_VALUE then v else x := by
  by_cases h : x = INVALID_VALUE <;> simp [updateValue000, fixnumValid, h]

/-- C4 counterexample: in the ino variant, with a previously stored phase-1
voltage of 2301, a cycle whose channel open succeeds but whose first read
times out overwrites the slot with the INVALID_VALUE sentinel instead of
retaining 2301. -/
theorem updateValuesIno_overwrites_on_failure :
    (updateValuesIno crcZero ⟨STATUS_OK, [2301, 0, 0, 0, 0, 0, 0, 0, 0, 0, 0]⟩
        (openRespOk :: [] :: List.replicate 10 valRespOk)).1.values.getD 0 0 =
      INVALID_VALUE ∧
    (2301 : Int) ≠ INVALID_VALUE := by
  decide

/-- C4 (amended): in the 000 variant every stored slot is overwritten only
by a non-sentinel read result and a failed read retains the previous value
slot-for-slot; in the base ino variant, once the channel opens, every slot
is overwritten with that cycle's read result regardless of what was stored
before - the sentinel when the read failed. -/
theorem updateValue_retention_contrast :
    (∀ (crc : Crc) (now : Int) (specs : List ReadSpec) (olds : List Int)
        (tmo : Option Int) (bus : List (List Nat)), olds.length = specs.length →
      (pollSteps000 crc now specs olds tmo bus).values =
        List.zipWith (fun old x => if x = INVALID_VALUE then old else x) olds
          (pollSteps000 crc now specs olds tmo bus).results) ∧
    (∀ (crc : Crc) (st st2 : MeterIno) (bus : List (List Nat)),
      openChannel crc (bus.headD []) = true →
      (updateValuesIno crc st bus).1.values = (updateValuesIno crc st2 bus).1.values) := by
  constructor
  · intro crc now specs
    induction specs with
    | nil =>
        intro olds tmo bus hlen
        have holds : olds = [] := List.length_eq_zero.mp hlen
        subst holds
        simp [pollSteps000]
    | cons s ss ih =>
        intro olds tmo bus hlen
        cases olds with
        | nil => simp at hlen
        | cons o os =>
            have hlen' : os.length = ss.length := by simpa using hlen
            simp only [pollSteps000, List.headD_cons, List.tail_cons,
              List.zipWith_cons_cons, updateValue000_fst]
            congr 1
            exact ih os _ _ hlen'
  · intro crc st st2 bus h
    rw [List.headD_eq_head?] at h
    simp [updateValuesIno, h]

/-- Witness for the amended C4: both parts applied at concrete inputs. -/
theorem updateValue_retention_contrast_witness :
    (pollSteps000 crcZero 0 [ReadSpec.rv 0x11] [7] (some 20000) [[]]).values =
      List.zipWith (fun old x => if x = INVALID_VALUE then old else x) [7]
        (pollSteps000 crcZero 0 [ReadSpec.rv 0x11] [7] (some 20000) [[]]).results ∧
    (updateValuesIno crcZero ⟨STATUS_OK, [2301, 0, 0, 0, 0, 0, 0, 0, 0, 0, 0]⟩
        [openRespOk]).1.values =
      (updateValuesIno crcZero ⟨STATUS_UNKNOWN, List.replicate 11 5⟩
        [openRespOk]).1.values :=
  ⟨updateValue_retention_contrast.1 crcZero 0 [ReadSpec.rv 0x11] [7] (some 20000) [[]]
      rfl,
    updateValue_retention_contrast.2 crcZero
      ⟨STATUS_OK, [2301, 0, 0, 0, 0, 0, 0, 0, 0, 0, 0]⟩
      ⟨STATUS_UNKNOWN, List.replicate 11 5⟩ [openRespOk] (by decide)⟩

/-! ## C6: validity counter over all-fail and all-succeed cycles -/

theorem updateValue000_snd (v x : Int) :
    (updateValue000 v x).2 = if x = INVALID_VALUE then 0 else 1 := by
  by_cases h : x = INVALID_VALUE <;> simp [updateValue000, fixnumValid, h]

theorem pollSteps000_cnt_le (crc : Crc) (now : Int) (specs : List ReadSpec) :
    ∀ (olds : List Int) (tmo : Option Int) (bus : List (List Nat)),
      (pollSteps000 crc now specs olds tmo bus).cnt ≤ specs.length := by
  induction specs with
  | nil =>
      intro olds tmo bus
      simp [pollSteps000]
  | cons s ss ih =>
      intro olds tmo bus
      simp only [pollSteps000, List.length_cons]
      have hu : (updateValue000 (olds.headD 0) (doRead000 crc now s tmo bus).result).2 ≤ 1 := by
        rw [updateValue000_snd]
        split <;> omega
      have hrest := ih olds.tail (doRead000 crc now s tmo bus).tmo
        (doRead000 crc now s tmo bus).bus
      omega

theorem doRead000_good (crc : Crc) (now : Int) (s : ReadSpec) (tmo : Option Int)
    (bus : List (List Nat)) (hopen : timeoutCheck tmo now = false)
    (hg : goodEntry000 crc s (bus.headD []) = true) :
    (doRead000 crc now s tmo bus).result ≠ INVALID_VALUE ∧
      (doRead000 crc now s tmo bus).tmo = tmo ∧
      (doRead000 crc now s tmo bus).bus = bus.tail := by
  have hcc := checkChannel_not_expired crc now tmo bus hopen
  cases s with
  | rv code =>
      simp only [goodEntry000, Bool.and_eq_true] at hg
      obtain ⟨hsr, hall⟩ := hg
      have hbytes : ∀ b ∈ (bus.headD []).take 6, b < 256 := by
        intro b hb
        have := List.all_eq_true.mp hall b (List.take_subset _ _ hb)
        exact of_decide_eq_true this
      have hd := readValueDecode_lt _ hbytes
      have e22 : (2 : Nat) ^ 22 = 4194304 := by norm_num
      rw [e22] at hd
      simp only [doRead000, readValue000, hcc]
      rw [if_pos hsr]
      refine ⟨?_, rfl, rfl⟩
      rw [sendReceive_snd]
      show (readValueDecode ((bus.headD []).take 6) : Int) ≠ INVALID_VALUE
      have hle : (readValueDecode ((bus.headD []).take 6) : Int) ≤ 4194303 := by
        exact_mod_cast Nat.le_of_lt_succ (by omega)
      have hI : INVALID_VALUE = (2147483647 : Int) := by norm_num [INVALID_VALUE]
      rw [hI]
      omega
  | re num =>
      simp only [goodEntry000, Bool.and_eq_true] at hg
      obtain ⟨hsr, hdec⟩ := hg
      have hne := of_decide_eq_true hdec
      simp only [doRead000, readEnergy000, hcc]
      rw [if_pos hsr]
      exact ⟨hne, rfl, rfl⟩

theorem pollSteps000_good (crc : Crc) (now : Int) (specs : List ReadSpec) :
    ∀ (olds : List Int) (tmo : Option Int) (bus : List (List Nat)),
      timeoutCheck tmo now = false → goodBus000 crc specs bus = true →
      (pollSteps000 crc now specs olds tmo bus).cnt = specs.length ∧
      (pollSteps000 crc now specs olds tmo bus).tmo = tmo := by
  induction specs with
  | nil =>
      intro olds tmo bus hopen hgood
      simp [pollSteps000]
  | cons s ss ih =>
      intro olds tmo bus hopen hgood
      simp only [goodBus000, Bool.and_eq_true] at hgood
      obtain ⟨hg, hrest⟩ := hgood
      obtain ⟨hres, htmo, hbus⟩ := doRead000_good crc now s tmo bus hopen hg
      simp only [pollSteps000, List.length_cons, htmo, hbus]
      have hcnt : (updateValue000 (olds.headD 0) (doRead000 crc now s tmo bus).result).2 = 1 := by
        rw [updateValue000_snd, if_neg hres]
      obtain ⟨ihc, iht⟩ := ih olds.tail tmo bus.tail hopen hrest
      rw [hcnt, ihc]
      exact ⟨by omega, iht⟩

/-- C6 counterexample: a boot-time poll pass of the 000 variant in which
all fourteen exchanges succeed, but both energy responses decode to the
sentinel 0x7fffffff, ends with validValues = 11, not the full expected
count 13. -/
theorem updateValues000_all_ok_not_full :
    ((updateValues000 crcZero 0 bootMeter000 busAllOkSentinel).2.events).all
        (fun e => e.ok) = true ∧
      ((updateValues000 crcZero 0 bootMeter000 busAllOkSentinel).2.events).length = 14 ∧
      (updateValues000 crcZero 0 bootMeter000 busAllOkSentinel).1.validValues = 11 ∧
      (11 : Nat) ≠ EXPECTED_VALUES := by
  decide

/-- C6 (amended): in the 000 variant, a cycle where every exchange fails
leaves the measurement set unchanged with validValues = 0; a cycle entered
with the session open, in which every exchange succeeds and every decoded
value is non-sentinel (automatic for value reads, an extra condition for
the two energy reads), ends with validValues = 13; and validValues never
exceeds EXPECTED_VALUES = 13. -/
theorem updateValues000_validValues_range :
    (∀ (crc : Crc) (now : Int) (st : Meter000) (bus : List (List Nat)),
      busDead bus = true → st.values.length = 13 →
      (updateValues000 crc now st bus).1.values = st.values ∧
      (updateValues000 crc now st bus).1.validValues = 0) ∧
    (∀ (crc : Crc) (now : Int) (st : Meter000) (bus : List (List Nat)),
      timeoutCheck st.openTmo now = false →
      goodBus000 crc pollSpecs000 bus = true →
      (updateValues000 crc now st bus).1.validValues = EXPECTED_VALUES) ∧
    (∀ (crc : Crc) (now : Int) (st : Meter000) (bus : List (List Nat)),
      (updateValues000 crc now st bus).1.validValues ≤ EXPECTED_VALUES) := by
  refine ⟨?_, ?_, ?_⟩
  · intro crc now st bus hd hlen
    obtain ⟨hv, hc, -, -⟩ :=
      pollSteps000_dead crc now pollSpecs000 st.values st.openTmo bus hd
        (by rw [hlen]; rfl)
    exact ⟨hv, hc⟩
  · intro crc now st bus hopen hgood
    obtain ⟨hc, -⟩ :=
      pollSteps000_good crc now pollSpecs000 st.values st.openTmo bus hopen hgood
    exact hc
  · intro crc now st bus
    exact pollSteps000_cnt_le crc now pollSpecs000 st.values st.openTmo bus

/-- Witness for the amended C6: the all-fail leg on a concrete dead bus and
the all-succeed leg on a concrete fully good bus. -/
theorem updateValues000_validValues_range_witness :
    ((updateValues000 crcZero 0 bootMeter000 [[]]).1.values = bootMeter000.values ∧
      (updateValues000 crcZero 0 bootMeter000 [[]]).1.validValues = 0) ∧
    (updateValues000 crcZero 0
        { openTmo := some 20000, values := List.replicate 13 0, validValues := 0 }
        (List.replicate 11 valRespOk ++ [energyRespGood, energyRespGood])).1.validValues =
      EXPECTED_VALUES :=
  ⟨updateValues000_validValues_range.1 crcZero 0 bootMeter000 [[]] (by decide) (by decide),
    updateValues000_validValues_range.2.1 crcZero 0
      { openTmo := some 20000, values := List.replicate 13 0, validValues := 0 }
      (List.replicate 11 valRespOk ++ [energyRespGood, energyRespGood])
      (by decide) (by decide)⟩

/-! ## C10: the reduced variant treats a zero reading like a failure -/

theorem updateValue001_fst (v x : Int) :
    (updateValue001 v x).1 = if x = 0 then v else x := by
  by_cases h : x = 0 <;> simp [updateValue001, h]

theorem updateValue001_snd (v x : Int) :
    (updateValue001 v x).2 = if x = 0 then 0 else 1 := by
  by_cases h : x = 0 <;> simp [updateValue001, h]

theorem pollSteps001_char (crc : Crc) (now : Int) (codes : List Nat) :
    ∀ (olds : List Int) (tmo : Option Int) (bus : List (List Nat)),
      olds.length = codes.length →
      (pollSteps001 crc now codes olds tmo bus).values =
        List.zipWith (fun old x => if x = 0 then old else x) olds
          (pollSteps001 crc now codes olds tmo bus).results ∧
      (pollSteps001 crc now codes olds tmo bus).cnt =
        ((pollSteps001 crc now codes olds tmo bus).results).countP
          (fun x => !(x == 0)) := by
  induction codes with
  | nil =>
      intro olds tmo bus hlen
      have holds : olds = [] := List.length_eq_zero.mp hlen
      subst holds
      simp [pollSteps001]
  | cons c cs ih =>
      intro olds tmo bus hlen
      cases olds with
      | nil => simp at hlen
      | cons o os =>
          have hlen' : os.length = cs.length := by simpa using hlen
          obtain ⟨ihv, ihc⟩ := ih os (readValue001 crc now c tmo bus).tmo
            (readValue001 crc now c tmo bus).bus hlen'
          simp only [pollSteps001, List.headD_cons, List.tail_cons,
            List.zipWith_cons_cons, List.countP_cons, updateValue001_fst,
            updateValue001_snd]
          refine ⟨by rw [ihv], ?_⟩
          rw [ihc]
          by_cases hz : (readValue001 crc now c tmo bus).result = 0
          · simp [hz]
          · simp [hz]
            omega

/-- C10: in the reduced 001 variant, a poll pass stores a read result into
its slot only when the result is nonzero and counts only nonzero results:
every zero result - a failed exchange or a genuine zero reading - leaves
its slot unchanged and does not increment the validity counter. -/
theorem updateValues001_zero_like_failure (crc : Crc) (now : Int) (st : Meter001)
    (bus : List (List Nat)) (hlen : st.values.length = 11) :
    (updateValues001 crc now st bus).1.values =
      List.zipWith (fun old x => if x = 0 then old else x) st.values
        ((updateValues001 crc now st bus).2.results) ∧
    (updateValues001 crc now st bus).1.validValues =
      ((updateValues001 crc now st bus).2.results).countP (fun x => !(x == 0)) := by
  have h := pollSteps001_char crc now pollCodes001 st.values st.openTmo bus
    (by rw [hlen]; rfl)
  exact h

/-- Witness for C10: a pass over a bus whose one scripted exchange succeeds
with the genuine reading zero retains every previously stored slot and
counts nothing. -/
theorem updateValues001_zero_like_failure_witness :
    (updateValues001 crcZero 0
        { openTmo := some 20000, values := List.replicate 11 5, validValues := 0 }
        [valRespOk]).1.values =
      List.zipWith (fun old x => if x = 0 then old else x) (List.replicate 11 5)
        ((updateValues001 crcZero 0
            { openTmo := some 20000, values := List.replicate 11 5, validValues := 0 }
            [valRespOk]).2.results) ∧
    (updateValues001 crcZero 0
        { openTmo := some 20000, values := List.replicate 11 5, validValues := 0 }
        [valRespOk]).1.validValues =
      ((updateValues001 crcZero 0
          { openTmo := some 20000, values := List.replicate 11 5, validValues := 0 }
          [valRespOk]).2.results).countP (fun x => !(x == 0)) :=
  updateValues001_zero_like_failure crcZero 0
    { openTmo := some 20000, values := List.replicate 11 5, validValues := 0 }
    [valRespOk] (by decide)

/-! ## C8: the first-dump marker and the initial schedule -/

theorem dumpTerm_eq_highlight (ty : Nat) :
    dumpTerm ty = [HIGHLIGHT_CHAR] ↔ ty = DUMP_FIRST := by
  unfold dumpTerm DUMP_REGULAR DUMP_FIRST HIGHLIGHT_CHAR
  by_cases h0 : ty = 0
  · simp [h0]
  · by_cases h42 : ty = 42
    · simp [h0, h42]
    · simp [h0, h42]

theorem schedMakeDump_markers (s : SchedState) (ty : Nat) (now : Int) :
    countFirstMarkers (schedMakeDump s ty now).out =
      countFirstMarkers s.out + (if ty = DUMP_FIRST then 1 else 0) ∧
    (schedMakeDump s ty now).ds.firstDump = false := by
  refine ⟨?_, rfl⟩
  have hbeq : (dumpTerm ty == [HIGHLIGHT_CHAR]) = (if ty = DUMP_FIRST then true else false) := by
    by_cases hty : ty = DUMP_FIRST
    · subst hty
      simp [(dumpTerm_eq_highlight DUMP_FIRST).mpr rfl]
    · simp only [hty, if_false]
      rw [beq_eq_false_iff_ne]
      exact fun hc => hty ((dumpTerm_eq_highlight ty).mp hc)
  simp only [schedMakeDump, countFirstMarkers, makeDump000, List.map_cons,
    List.map_nil, List.countP_append, List.countP_cons, List.countP_nil,
    isFirstMarkerLine, hbeq]
  by_cases hty : ty = DUMP_FIRST <;> simp [hty]

theorem loopStep000_invariant (s : SchedState) (i : Int × Bool)
    (h0 : s.ds.firstDump = true → countFirstMarkers s.out = 0)
    (h1 : countFirstMarkers s.out ≤ 1) :
    ((loopStep000 s i).ds.firstDump = true →
      countFirstMarkers (loopStep000 s i).out = 0) ∧
    countFirstMarkers (loopStep000 s i).out ≤ 1 := by
  unfold loopStep000
  have hinv1 : ((dumpStateStep s i.1).ds.firstDump = true →
      countFirstMarkers (dumpStateStep s i.1).out = 0) ∧
      countFirstMarkers (dumpStateStep s i.1).out ≤ 1 := by
    unfold dumpStateStep
    by_cases hto : timeoutCheck s.ds.dumpTmo i.1 = true
    · rw [if_pos hto]
      by_cases hfd : s.ds.firstDump = true
      · rw [if_pos hfd]
        obtain ⟨hc, hf⟩ := schedMakeDump_markers s DUMP_FIRST i.1
        refine ⟨fun hx => ?_, ?_⟩
        · rw [hf] at hx
          cases hx
        · rw [hc, h0 hfd]
          simp
      · rw [if_neg hfd]
        obtain ⟨hc, hf⟩ := schedMakeDump_markers s DUMP_REGULAR i.1
        refine ⟨fun hx => ?_, ?_⟩
        · rw [hf] at hx
          cases hx
        · rw [hc]
          have hz : (if DUMP_REGULAR = DUMP_FIRST then 1 else 0) = 0 := by decide
          omega
    · rw [if_neg hto]
      exact ⟨h0, h1⟩
  obtain ⟨h10, h11⟩ := hinv1
  by_cases hq : i.2 = true
  · rw [if_pos hq]
    obtain ⟨hc, hf⟩ := schedMakeDump_markers (dumpStateStep s i.1) DUMP_QUERY i.1
    refine ⟨fun hx => ?_, ?_⟩
    · rw [hf] at hx
      cases hx
    · rw [hc]
      have hz : (if DUMP_QUERY = DUMP_FIRST then 1 else 0) = 0 := by decide
      omega
  · rw [if_neg hq]
    exact ⟨h10, h11⟩

theorem run000_invariant (inputs : List (Int × Bool)) :
    ∀ s : SchedState,
      (s.ds.firstDump = true → countFirstMarkers s.out = 0) →
      countFirstMarkers s.out ≤ 1 →
      ((run000 s inputs).ds.firstDump = true →
        countFirstMarkers (run000 s inputs).out = 0) ∧
      countFirstMarkers (run000 s inputs).out ≤ 1 := by
  induction inputs with
  | nil =>
      intro s h0 h1
      exact ⟨h0, h1⟩
  | cons i is ih =>
      intro s h0 h1
      obtain ⟨h10, h11⟩ := loopStep000_invariant s i h0 h1
      exact ih (loopStep000 s i) h10 h11

/-- C8 counterexample: an execution in which a query command arrives at
time 1000, before the first automatic dump: the first emitted dump carries
the query terminator, not the first-dump marker, and even after the next
automatic dump fires at time 61000 no line of the execution ever carries
the first-dump marker. -/
theorem run000_query_preempts_first_marker :
    ((run000 (bootSched000 [0, 0]) [(1000, true), (61000, false)]).out.head? =
      some (1000, Line.summary 0 0 0 0 [DUMP_QUERY, HIGHLIGHT_CHAR])) ∧
    (run000 (bootSched000 [0, 0]) [(1000, true), (61000, false)]).out.length = 8 ∧
    countFirstMarkers
      (run000 (bootSched000 [0, 0]) [(1000, true), (61000, false)]).out = 0 ∧
    [DUMP_QUERY, HIGHLIGHT_CHAR] ≠ [HIGHLIGHT_CHAR] := by
  decide

/-- C8 (amended): the first automatic dump deadline of the 000 variant is
armed INITIAL_DUMP_INTERVAL (2 s) after boot; a scheduler check before the
deadline emits nothing; the first check at or after the deadline - if no
query dump preceded it - emits a dump whose summary line carries the
first-dump marker; and in every execution from boot the first-dump marker
is emitted at most once (a query dump arriving first clears the first-dump
flag, so the marker may never be emitted at all). -/
theorem dump_first_marker_schedule :
    (∀ rands : List Int,
      (bootSched000 rands).ds.dumpTmo = some INITIAL_DUMP_INTERVAL) ∧
    (∀ (rands : List Int) (now : Int), now < INITIAL_DUMP_INTERVAL →
      (run000 (bootSched000 rands) [(now, false)]).out = []) ∧
    (∀ (rands : List Int) (now : Int), INITIAL_DUMP_INTERVAL ≤ now →
      (run000 (bootSched000 rands) [(now, false)]).out.head? =
        some (now, Line.summary 0 0 0 0 [HIGHLIGHT_CHAR])) ∧
    (∀ (rands : List Int) (inputs : List (Int × Bool)),
      countFirstMarkers (run000 (bootSched000 rands) inputs).out ≤ 1) := by
  refine ⟨fun rands => rfl, ?_, ?_, ?_⟩
  · intro rands now h
    have hto : timeoutCheck (some INITIAL_DUMP_INTERVAL) now = false := by
      simp only [timeoutCheck, decide_eq_false_iff_not]
      omega
    simp [run000, loopStep000, dumpStateStep, bootSched000, hto]
  · intro rands now h
    have hto : timeoutCheck (some INITIAL_DUMP_INTERVAL) now = true := by
      simp only [timeoutCheck, decide_eq_true_eq]
      omega
    simp [run000, loopStep000, dumpStateStep, bootSched000, hto, schedMakeDump,
      makeDump000, bootMeter000, dumpTerm, DUMP_FIRST, DUMP_REGULAR, HIGHLIGHT_CHAR]
  · intro rands inputs
    exact (run000_invariant inputs (bootSched000 rands) (fun _ => rfl)
      (by simp [bootSched000, countFirstMarkers])).2

/-- Witness for the amended C8 at concrete times. -/
theorem dump_first_marker_schedule_witness :
    (run000 (bootSched000 [0]) [(1999, false)]).out = [] ∧
    (run000 (bootSched000 [0]) [(2000, false)]).out.head? =
      some (2000, Line.summary 0 0 0 0 [HIGHLIGHT_CHAR]) :=
  ⟨dump_first_marker_schedule.2.1 [0] 1999 (by decide),
    dump_first_marker_schedule.2.2.1 [0] 2000 (by decide)⟩
